import Mathlib

/-!
# bp-tc-dolar: the update pipeline (`src/updateData.js`) and the router (`src/index.js`)

A shallow embedding of the two source files, and theorems about them.

* JavaScript strings are sequences of UTF-16 code units.  They are modelled as
  `List Char`, one `Char` per code unit, which covers every string without
  surrogate code units; on those the code-unit order used by `<` is the order
  of `Char.toNat`.
* JavaScript numbers are IEEE-754 doubles.  A finite double is a dyadic
  rational, so it is modelled exactly as a sign and a fraction of naturals;
  string-to-number conversion rounds to nearest, ties to even, as V8 does.
* `await`ed calls that can reject are modelled in `Except`; the store behind
  `env.tc` is an explicit state.
-/

namespace BpTcDolar

/-- A JavaScript string, one `Char` per UTF-16 code unit. -/
abbrev JSString := List Char

/-! ## String primitives (`String.prototype.indexOf`, `substring`, `<`) -/

/-- Whether `needle` occurs at the very start of `s`. -/
def startsWith : JSString → JSString → Bool
  | [], _ => true
  | _ :: _, [] => false
  | c :: cs, d :: ds => c == d && startsWith cs ds

/-- The smallest offset `k + i` such that `needle` occurs in `s` at `i`, where `k`
is the position of the head of `s` in the whole string. -/
def searchFrom (needle : JSString) : JSString → Nat → Option Nat
  | [], k => if needle.isEmpty then some k else none
  | c :: cs, k =>
    if startsWith needle (c :: cs) then some k else searchFrom needle cs (k + 1)

/-- Clamp an integer position into `[0, len]` (ToIntegerOrInfinity followed by
`min(max(pos, 0), len)`). -/
def clampIndex (pos : Int) (len : Nat) : Nat := min pos.toNat len

/-- The method `s.indexOf(needle, position)`: the index of the first occurrence of
`needle` at or after the clamped `position`, or `-1`. -/
def indexOf (s needle : JSString) (position : Int) : Int :=
  let start := clampIndex position s.length
  match searchFrom needle (s.drop start) start with
  | some k => (k : Int)
  | none => -1

/-- The method `s.substring(start, end)`: both ends are clamped into `[0, len]` and
swapped when out of order. -/
def substring (s : JSString) (start stop : Int) : JSString :=
  let a := clampIndex start s.length
  let b := clampIndex stop s.length
  (s.drop (min a b)).take (max a b - min a b)

/-- The relational operator `a < b` on two strings: lexicographic on code units,
a proper prefix being smaller. -/
def strLt : JSString → JSString → Bool
  | _, [] => false
  | [], _ :: _ => true
  | c :: cs, d :: ds =>
    if c.toNat < d.toNat then true
    else if d.toNat < c.toNat then false
    else strLt cs ds

/-- The method `s.includes(t)`. -/
def includes (s t : JSString) : Bool := (searchFrom t s 0).isSome

/-! ## Numbers (`Number(text)`, `Number.prototype.toFixed`) -/

/-- A JavaScript Number.  `fin neg num den` is the double `(-1)^neg * num / den`;
`fin true 0 1` is negative zero. -/
inductive JSNumber where
  | nan
  | inf (neg : Bool)
  | fin (neg : Bool) (num den : Nat)
  deriving DecidableEq, Repr

/-- The number of binary digits of `n`, with `fuel` bounding the recursion. -/
def bitLengthAux : Nat → Nat → Nat
  | 0, _ => 0
  | fuel + 1, n => if n = 0 then 0 else bitLengthAux fuel (n / 2) + 1

/-- The number of binary digits of `n` (`0` for `0`). -/
def bitLength (n : Nat) : Nat := bitLengthAux n n

/-- The integer `e` with `2^e ≤ a / b < 2^(e+1)`, for `a, b > 0`. -/
def binaryExponent (a b : Nat) : Int :=
  let d : Int := (bitLength a : Int) - (bitLength b : Int)
  if b * 2 ^ d.toNat ≤ a * 2 ^ (-d).toNat then d else d - 1

/-- The quotient `n / d` rounded to the nearest integer, ties to the even one. -/
def divRoundHalfEven (n d : Nat) : Nat :=
  let q := n / d
  let r := n % d
  if d < 2 * r ∨ (2 * r = d ∧ q % 2 = 1) then q + 1 else q

/-- The double nearest to the positive rational `a / b` (ties to even), as a
fraction, or `none` when it overflows to infinity. -/
def roundToDouble (a b : Nat) : Option (Nat × Nat) :=
  let q : Int := max (binaryExponent a b - 52) (-1074)
  let m := divRoundHalfEven (a * 2 ^ (-q).toNat) (b * 2 ^ q.toNat)
  -- more than 1024 binary digits: the rounded value is at least 2^1024
  if 1024 < bitLength (m * 2 ^ q.toNat) then none
  else some (m * 2 ^ q.toNat, 2 ^ (-q).toNat)

/-- The Number for the mathematical value `(-1)^neg * a / b`. -/
def numberOfRat (neg : Bool) (a b : Nat) : JSNumber :=
  if a = 0 then .fin neg 0 1
  else match roundToDouble a b with
    | some (n, d) => .fin neg n d
    | none => .inf neg

/-- The characters StringToNumber strips from both ends: WhiteSpace and
LineTerminator. -/
def isStrWhiteSpace (c : Char) : Bool :=
  c.toNat ∈ [0x9, 0xA, 0xB, 0xC, 0xD, 0x20, 0xA0, 0x1680, 0x2028, 0x2029,
    0x202F, 0x205F, 0x3000, 0xFEFF] || (0x2000 ≤ c.toNat && c.toNat ≤ 0x200A)

/-- Strip leading and trailing white space. -/
def trimWhiteSpace (s : JSString) : JSString :=
  ((s.dropWhile isStrWhiteSpace).reverse.dropWhile isStrWhiteSpace).reverse

/-- The value of a digit in a radix up to 16, or `none`. -/
def digitValue (radix : Nat) (c : Char) : Option Nat :=
  let v :=
    if '0' ≤ c ∧ c ≤ '9' then some (c.toNat - '0'.toNat)
    else if 'a' ≤ c ∧ c ≤ 'f' then some (c.toNat - 'a'.toNat + 10)
    else if 'A' ≤ c ∧ c ≤ 'F' then some (c.toNat - 'A'.toNat + 10)
    else none
  v.filter (· < radix)

/-- The value of a run of digits read in `radix`, `acc` being the value read so
far; `none` when a character is not a digit of that radix. -/
def digitsValue (radix : Nat) : JSString → Nat → Option Nat
  | [], acc => some acc
  | c :: cs, acc =>
    match digitValue radix c with
    | some v => digitsValue radix cs (acc * radix + v)
    | none => none

/-- A non-empty run of digits in `radix`. -/
def digitsValue1 (radix : Nat) (s : JSString) : Option Nat :=
  if s.isEmpty then none else digitsValue radix s 0

/-- The optional ExponentPart `e[+-]digits` that ends a decimal literal: its value,
`0` when absent, `none` when malformed. -/
def exponentPart : JSString → Option Int
  | [] => some 0
  | c :: rest =>
    if c = 'e' ∨ c = 'E' then
      match rest with
      | '+' :: ds => (digitsValue1 10 ds).map Int.ofNat
      | '-' :: ds => (digitsValue1 10 ds).map fun v => - Int.ofNat v
      | ds => (digitsValue1 10 ds).map Int.ofNat
    else none

/-- StrUnsignedDecimalLiteral: `Infinity`, `digits[.digits][exp]` or `.digits[exp]`. -/
def unsignedDecimal (neg : Bool) (s : JSString) : JSNumber :=
  if s = "Infinity".toList then .inf neg
  else
    let ip := s.takeWhile Char.isDigit
    let r1 := s.dropWhile Char.isDigit
    let (fp, r2, dotted) :=
      match r1 with
      | '.' :: t => (t.takeWhile Char.isDigit, t.dropWhile Char.isDigit, true)
      | _ => ([], r1, false)
    if ip.isEmpty ∧ fp.isEmpty then .nan
    else if ip.isEmpty ∧ ¬ dotted then .nan
    else
      match digitsValue 10 (ip ++ fp) 0, exponentPart r2 with
      | some n, some e =>
        let e10 : Int := e - fp.length
        numberOfRat neg (n * 10 ^ e10.toNat) (10 ^ (-e10).toNat)
      | _, _ => .nan

/-- StringToNumber, the conversion `Number(text)` applies to a string. -/
def stringToNumber (text : JSString) : JSNumber :=
  match trimWhiteSpace text with
  | [] => .fin false 0 1
  | '+' :: s => unsignedDecimal false s
  | '-' :: s => unsignedDecimal true s
  | '0' :: c :: s =>
    let radix := if c = 'x' ∨ c = 'X' then 16 else if c = 'o' ∨ c = 'O' then 8
      else if c = 'b' ∨ c = 'B' then 2 else 0
    if radix = 0 then unsignedDecimal false ('0' :: c :: s)
    else match digitsValue1 radix s with
      | some n => numberOfRat false n 1
      | none => .nan
  | s => unsignedDecimal false s

/-- The call `Number(v)` on what `env.tc.get` resolves to: a string, or `null`, which
converts to `+0`. -/
def toNumber : Option JSString → JSNumber
  | none => .fin false 0 1
  | some s => stringToNumber s

/-- The decimal digits of `n`, most significant first, in front of `acc`. -/
def natDigitsAux : Nat → Nat → JSString → JSString
  | 0, _, acc => acc
  | fuel + 1, n, acc =>
    if n < 10 then Nat.digitChar n :: acc
    else natDigitsAux fuel (n / 10) (Nat.digitChar (n % 10) :: acc)

/-- The decimal representation of `n`, with no leading zeroes (`0` is `"0"`). -/
def natDigits (n : Nat) : JSString := natDigitsAux (n + 1) n []

/-- The shortest-digits search of Number::toString for an integer `x`: the largest
`p ≤ fuel` for which a multiple of `10^p` next to `x` converts back to `x`, with that
multiple (the closer one, the even one on a tie) divided by `10^p`. -/
def shortestDigits (x : Nat) : Nat → Option (Nat × Nat)
  | 0 => some (x, 0)
  | p + 1 =>
    let lo := x / 10 ^ (p + 1) * 10 ^ (p + 1)
    let hi := lo + 10 ^ (p + 1)
    let okLo := lo ≠ 0 ∧ roundToDouble lo 1 = some (x, 1)
    let okHi := roundToDouble hi 1 = some (x, 1)
    if okLo ∧ okHi then
      if x - lo < hi - x ∨ (x - lo = hi - x ∧ (lo / 10 ^ (p + 1)) % 2 = 0)
      then some (lo / 10 ^ (p + 1), p + 1) else some (hi / 10 ^ (p + 1), p + 1)
    else if okLo then some (lo / 10 ^ (p + 1), p + 1)
    else if okHi then some (hi / 10 ^ (p + 1), p + 1)
    else shortestDigits x p

/-- Number::toString for a double `x ≥ 10^21`, which is an integer: exponential
notation `d[.ddd]e+n`. -/
def bigToString (x : Nat) : JSString :=
  match shortestDigits x (natDigits x).length with
  | none => []
  | some (s, p) =>
    let ds := natDigits s
    let e := natDigits (p + ds.length - 1)
    match ds with
    | [d] => d :: 'e' :: '+' :: e
    | d :: rest => d :: '.' :: (rest ++ 'e' :: '+' :: e)
    | [] => []

/-- The method `x.toFixed(f)` for `0 ≤ f ≤ 100`. -/
def toFixed (x : JSNumber) (f : Nat) : JSString :=
  match x with
  | .nan => "NaN".toList
  | .inf false => "Infinity".toList
  | .inf true => "-Infinity".toList
  | .fin neg num den =>
    let s : JSString := if neg ∧ num ≠ 0 then ['-'] else []
    if 10 ^ 21 * den ≤ num then s ++ bigToString (num / den)
    else
      -- the integer n with n / 10^f - x as close to zero as possible, the larger on a tie
      let n := (2 * num * 10 ^ f + den) / (2 * den)
      let m := natDigits n
      let m := if f ≠ 0 ∧ m.length ≤ f then List.replicate (f + 1 - m.length) '0' ++ m else m
      if f ≠ 0 then s ++ m.take (m.length - f) ++ '.' :: m.drop (m.length - f)
      else s ++ m

/-! ## The update pipeline (`src/updateData.js`) -/

/-- The object `updateData` resolves to: `{ status, price }` or `{ status, reason }`;
an absent property is `none`. -/
structure UpdateResult where
  status : JSString
  price : Option JSString
  reason : Option JSString
  deriving DecidableEq, Repr

deriving instance DecidableEq for Except

/-- What a run leaves behind: how the promise settled (`error` is a rejection),
the arguments of every call to `saveDolar` in order, and the store behind `env.tc`. -/
structure Run (σ ε Fecha α : Type) where
  outcome : Except ε α
  saved : List (JSString × Fecha)
  store : σ

/-- The collaborators of `updateData`: the binding `env.tc` and the modules
`./getxml`, `./getDateBP` and `./saveDolar`, whose code is not part of `src/`.
`σ` is the state of the store, `ε` the thrown values, `Fecha` what `getDateBP` returns. -/
structure Env (σ ε Fecha : Type) where
  /-- The call `env.tc.get(key, { cacheTtl: 3600 })`: the text under `key`, `null` when absent. -/
  tcGet : JSString → σ → Except ε (Option JSString)
  /-- The call `getxml()`: the text of the feed. -/
  getxml : Except ε JSString
  /-- The call `getDateBP(text)`. -/
  getDateBP : JSString → Except ε Fecha
  /-- The call `saveDolar(env, precio, fecha)`, which may write the store. -/
  saveDolar : JSString → Fecha → σ → Except ε Unit × σ

/-- The reason returned when the item is not found. -/
def reasonNotFound : JSString :=
  "No se encontró el valor del dólar en el XML del DOF".toList

/-- The reason returned when the value is below the floor. -/
def reasonBelowFloor (valorDolar : JSString) : JSString :=
  "El valor del dólar ".toList ++ valorDolar ++ " es menor al precio mínimo permitido".toList

/-- The text of the item: from the first `<title>DOLAR` to the end of the first
`</item>` at or after it; `none` when either is missing (lines 25-34). -/
def itemContent (xmlText : JSString) : Option JSString :=
  let itemEndTag := "</item>".toList
  let startIndex := indexOf xmlText "<title>DOLAR".toList 0
  let endIndex := indexOf xmlText itemEndTag startIndex
  if startIndex = -1 ∨ endIndex = -1 then none
  else some (substring xmlText startIndex (endIndex + itemEndTag.length))

/-- Line 35: `itemContent.indexOf(descriptionStartTag) + descriptionStartTag.length`. -/
def descriptionStartIndex (itemContent : JSString) : Int :=
  indexOf itemContent "<description>".toList 0 + "<description>".toList.length

/-- Line 36: `itemContent.indexOf(descriptionEndTag, descriptionStartIndex)`. -/
def descriptionEndIndex (itemContent : JSString) : Int :=
  indexOf itemContent "</description>".toList (descriptionStartIndex itemContent)

/-- Line 37, the argument of `Number`: the text between the description tags. -/
def descriptionText (itemContent : JSString) : JSString :=
  substring itemContent (descriptionStartIndex itemContent) (descriptionEndIndex itemContent)

/-- Line 39: `itemContent.indexOf(pubDateStartTag) + pubDateStartTag.length`. -/
def pubDateStartIndex (itemContent : JSString) : Int :=
  indexOf itemContent "<pubDate>".toList 0 + "<pubDate>".toList.length

/-- Line 40: `itemContent.indexOf(pubDateEndTag, pubDateStartIndex)`. -/
def pubDateEndIndex (itemContent : JSString) : Int :=
  indexOf itemContent "</pubDate>".toList (pubDateStartIndex itemContent)

/-- Line 44, the argument of `getDateBP`: the text between the pubDate tags. -/
def pubDateText (itemContent : JSString) : JSString :=
  substring itemContent (pubDateStartIndex itemContent) (pubDateEndIndex itemContent)

/-- Line 37: `Number(itemContent.substring(...)).toFixed(4)`. -/
def valorDolar (itemContent : JSString) : JSString :=
  toFixed (stringToNumber (descriptionText itemContent)) 4

/-- Line 8: `Number(await env.tc.get("precioMinimoPermitido", ...)).toFixed(4)`, from
what the `get` resolved to. -/
def precioMinimoPermitido (raw : Option JSString) : JSString :=
  toFixed (toNumber raw) 4

/-- The function `updateData(env)`, run on the store `s`. -/
def updateData {σ ε Fecha : Type} (env : Env σ ε Fecha) (s : σ) : Run σ ε Fecha UpdateResult :=
  match env.tcGet "precioMinimoPermitido".toList s with
  | .error e => ⟨.error e, [], s⟩
  | .ok raw =>
    let precioMinimoPermitido := precioMinimoPermitido raw
    match env.getxml with
    | .error e => ⟨.error e, [], s⟩
    | .ok xmlText =>
      match itemContent xmlText with
      | none => ⟨.ok ⟨"no ok".toList, none, some reasonNotFound⟩, [], s⟩
      | some itemContent =>
        let valorDolar := valorDolar itemContent
        match env.getDateBP (pubDateText itemContent) with
        | .error e => ⟨.error e, [], s⟩
        | .ok fechaDolar =>
          if strLt valorDolar precioMinimoPermitido then
            match env.saveDolar precioMinimoPermitido fechaDolar s with
            | (.error e, s') => ⟨.error e, [(precioMinimoPermitido, fechaDolar)], s'⟩
            | (.ok _, s') =>
              ⟨.ok ⟨"no ok".toList, none, some (reasonBelowFloor valorDolar)⟩,
                [(precioMinimoPermitido, fechaDolar)], s'⟩
          else
            match env.saveDolar valorDolar fechaDolar s with
            | (.error e, s') => ⟨.error e, [(valorDolar, fechaDolar)], s'⟩
            | (.ok _, s') =>
              ⟨.ok ⟨"ok".toList, some valorDolar, none⟩, [(valorDolar, fechaDolar)], s'⟩

/-! ## The router (`src/index.js`) -/

/-- The body of a `Response`: `null`, a text, the JSON of the cached data, or the
favicon stream. -/
inductive Body (D F : Type) where
  | null
  | text (t : JSString)
  | json (data : D)
  | stream (fav : F)
  deriving DecidableEq

/-- A `Response`: status, body and the headers set by the handler. -/
structure Response (D F : Type) where
  status : Nat
  body : Body D F
  headers : List (JSString × JSString)
  deriving DecidableEq

/-- The parts of the request the handler reads: the method, the components of
`new URL(request.url)` and the header `If-Modified-Since` (`null` when absent). -/
structure Request where
  method : JSString
  protocol : JSString
  hostname : JSString
  port : JSString
  pathname : JSString
  ifModifiedSince : Option JSString

/-- The collaborators of `fetch` besides those of `updateData`.  `D` is what
`JSON.parse` returns, `V` the value of a property, `F` the favicon stream. -/
structure HttpEnv (σ ε Fecha D V F : Type) extends Env σ ε Fecha where
  /-- The call `JSON.parse(text)`. -/
  jsonParse : Option JSString → Except ε D
  /-- The property read `data.ultimaAct`, a TypeError when `data` is `null`. -/
  ultimaAct : D → Except ε V
  /-- The call `new Date(v).getTime()`, `none` for `NaN`. -/
  timeOfValue : V → Option Int
  /-- The call `new Date(text).getTime()`, `none` for `NaN`. -/
  timeOfText : JSString → Option Int
  /-- The call `env.tc.get("favicon", { cacheTtl: 3600, type: "stream" })`. -/
  tcGetStream : JSString → σ → Except ε F
  /-- The call `respuestatc(data)`, whose module is not part of `src/`. -/
  respuestatc : D → Except ε (Response D F)
  /-- The URL parsing inside `Response.redirect(text, 302)`: the serialised URL that
  becomes the `Location` header, a TypeError when `text` does not parse. -/
  urlHref : JSString → Except ε JSString

/-- The comparison `a <= b` of two time values, false when either is `NaN`. -/
def timeLe : Option Int → Option Int → Bool
  | some a, some b => decide (a ≤ b)
  | _, _ => false

/-- A template-literal substitution of a property: the text, or `undefined`. -/
def interpolate : Option JSString → JSString
  | some t => t
  | none => "undefined".toList

/-- Lines 65-69: the response of `/actualizar` to the result of `updateData`. -/
def respondUpdate {D F : Type} (resultado : UpdateResult) : Response D F :=
  if resultado.status = "ok".toList then
    ⟨200, .text ("Datos actualizados: Precio del dólar ".toList ++ interpolate resultado.price), []⟩
  else
    ⟨500, .text ("Error al actualizar datos: ".toList ++ interpolate resultado.reason), []⟩

/-- Lines 44-79: the routing on `url.pathname`, once the conditional request is
settled. -/
def route {σ ε Fecha D V F : Type} (env : HttpEnv σ ε Fecha D V F) (request : Request)
    (data : D) (s : σ) : Run σ ε Fecha (Response D F) :=
  let canonical := "/MX/tc_barmesa/_tipo-de-cambio.html".toList
  if request.pathname ≠ canonical then
    if request.pathname = "/".toList ∨ request.pathname = [] ∨
        request.pathname = "/MX/tc_barmesa/_tipo-de-cambio".toList then
      if request.port = [] then
        match env.urlHref (request.protocol ++ request.hostname ++ canonical) with
        | .error e => ⟨.error e, [], s⟩
        | .ok href => ⟨.ok ⟨302, .null, [("Location".toList, href)]⟩, [], s⟩
      else
        match env.urlHref
          (request.protocol ++ request.hostname ++ ":".toList ++ request.port ++ canonical) with
        | .error e => ⟨.error e, [], s⟩
        | .ok href => ⟨.ok ⟨302, .null, [("Location".toList, href)]⟩, [], s⟩
    else if request.pathname = "/MX/tc_barmesa/_tipo-de-cambio.json".toList then
      ⟨.ok ⟨200, .json data, [("Content-Type".toList, "application/json".toList)]⟩, [], s⟩
    else if request.pathname = "/favicon.ico".toList then
      match env.tcGetStream "favicon".toList s with
      | .error e => ⟨.error e, [], s⟩
      | .ok fav => ⟨.ok ⟨200, .stream fav, [("Content-Type".toList, "image/png".toList)]⟩, [], s⟩
    else if request.pathname = "/actualizar".toList then
      let r := updateData env.toEnv s
      match r.outcome with
      | .error e => ⟨.error e, r.saved, r.store⟩
      | .ok resultado => ⟨.ok (respondUpdate resultado), r.saved, r.store⟩
    else ⟨.ok ⟨403, .text "URL no permitida".toList, []⟩, [], s⟩
  else
    ⟨env.respuestatc data, [], s⟩

/-- The handler `fetch(request, env, ctx)`, run on the store `s`. -/
def fetch {σ ε Fecha D V F : Type} (env : HttpEnv σ ε Fecha D V F) (request : Request)
    (s : σ) : Run σ ε Fecha (Response D F) :=
  if request.method ≠ "GET".toList then
    ⟨.ok ⟨405, .text "Método no permitido".toList, []⟩, [], s⟩
  else
    match (env.tcGet "data".toList s).bind env.jsonParse with
    | .error e => ⟨.error e, [], s⟩
    | .ok data =>
      match request.ifModifiedSince with
      | none => route env request data s
      | some since =>
        match env.ultimaAct data with
        | .error e => ⟨.error e, [], s⟩
        | .ok kVUltAct =>
          if timeLe (env.timeOfValue kVUltAct) (env.timeOfText since) then
            ⟨.ok ⟨304, .null, [("Vary".toList, "Accept-Encoding".toList),
              ("Cache-Control".toList, "no-store".toList)]⟩, [], s⟩
          else route env request data s

/-- The handler `scheduled(event, env, ctx)`: it runs `updateData` and logs. -/
def scheduled {σ ε Fecha : Type} (env : Env σ ε Fecha) (s : σ) : Run σ ε Fecha Unit :=
  let r := updateData env s
  match r.outcome with
  | .error e => ⟨.error e, r.saved, r.store⟩
  | .ok _ => ⟨.ok (), r.saved, r.store⟩

/-! ## Predicates and test doubles used in the statements -/

/-- Whether `v` reads `digits . dddd`: at least one digit, a point, exactly four
digits. -/
def hasFourDecimals (v : JSString) : Bool :=
  !(v.takeWhile Char.isDigit).isEmpty &&
    match v.dropWhile Char.isDigit with
    | '.' :: fp => fp.length == 4 && fp.all Char.isDigit
    | _ => false

/-- A feed with one DOLAR item of the given description, after an item of another
series. -/
def feedWith (description : JSString) : JSString :=
  ("<rss><channel><item><title>UDIS</title><description>8.1234</description>".toList ++
    "<pubDate>Sun, 31 Dec 2023 12:00:00 GMT</pubDate></item>".toList ++
    "<item><title>DOLAR FIX</title><description>".toList) ++ description ++
  ("</description><pubDate>Mon, 01 Jan 2024 12:00:00 GMT</pubDate></item>".toList ++
    "</channel></rss>".toList)

/-- The date text of the DOLAR item of `feedWith`. -/
def feedDate : JSString := "Mon, 01 Jan 2024 12:00:00 GMT".toList

/-- A test double for the collaborators of `updateData`: the store is the cached
entry, the floor text is `floor`, `getxml` settles as `feed`, dates are kept as text,
and nothing else fails. -/
def stubEnv (floor : JSString) (feed : Except JSString JSString) :
    Env (Option (JSString × JSString)) JSString JSString where
  tcGet := fun key _ =>
    .ok (if key = "precioMinimoPermitido".toList then some floor else none)
  getxml := feed
  getDateBP := fun t => .ok t
  saveDolar := fun precio fecha _ => (.ok (), some (precio, fecha))

/-- Modelled from the spec: the module `./getDateBP` is not part of `src/`; by §4.3 of
the spec it fails with `DateParseError` on a date text it cannot parse.  This double
is `stubEnv` with such a normaliser: it accepts the text `feedDate` and rejects every
other text. -/
def strictDateEnv (floor : JSString) (feed : Except JSString JSString) :
    Env (Option (JSString × JSString)) JSString JSString where
  tcGet := fun key _ =>
    .ok (if key = "precioMinimoPermitido".toList then some floor else none)
  getxml := feed
  getDateBP := fun t => if t = feedDate then .ok t else .error "DateParseError".toList
  saveDolar := fun precio fecha _ => (.ok (), some (precio, fecha))

/-- A feed whose only item is a DOLAR item with a description and no pubDate. -/
def feedWithoutPubDate : JSString :=
  "<rss><item><title>DOLAR FIX</title><description>17.5000</description></item></rss>".toList

/-- A test double for the collaborators of `fetch`: the text under every key but the
floor is the text of `ultimaAct` itself, and time values are written in decimal. -/
def stubHttpEnv (floor : JSString) (feed : Except JSString JSString) (ultimaAct : JSString) :
    HttpEnv (Option (JSString × JSString)) JSString JSString JSString JSString Unit where
  tcGet := fun key _ =>
    .ok (some (if key = "precioMinimoPermitido".toList then floor else ultimaAct))
  getxml := feed
  getDateBP := fun t => .ok t
  saveDolar := fun precio fecha _ => (.ok (), some (precio, fecha))
  jsonParse := fun t =>
    match t with
    | some d => .ok d
    | none => .error "SyntaxError".toList
  ultimaAct := fun d => .ok d
  timeOfValue := fun v => (digitsValue1 10 v).map Int.ofNat
  timeOfText := fun v => (digitsValue1 10 v).map Int.ofNat
  tcGetStream := fun _ _ => .ok ()
  respuestatc := fun d => .ok ⟨200, .text d, []⟩
  urlHref := fun t =>
    if startsWith "https:".toList t ∧ ¬ startsWith "https://".toList t
    then .ok ("https://".toList ++ t.drop 6) else .ok t

/-- A GET request for `pathname`, with the given `If-Modified-Since` header. -/
def getRequest (pathname : JSString) (ifModifiedSince : Option JSString) : Request where
  method := "GET".toList
  protocol := "https:".toList
  hostname := "example.com".toList
  port := []
  pathname := pathname
  ifModifiedSince := ifModifiedSince

/-- The relational operator `x < y` on two Numbers. -/
def numLt : JSNumber → JSNumber → Bool
  | .nan, _ => false
  | _, .nan => false
  | .inf n₁, .inf n₂ => n₁ && !n₂
  | .inf n₁, .fin _ _ _ => n₁
  | .fin _ _ _, .inf n₂ => !n₂
  | .fin n₁ a b, .fin n₂ c d =>
    decide ((if n₁ then -((a * d : Nat) : Int) else ((a * d : Nat) : Int))
      < (if n₂ then -((c * b : Nat) : Int) else ((c * b : Nat) : Int)))

/-- A stage of the pipeline fails with `e` on the store `s`: the read of the floor,
`getxml`, `getDateBP` on the date text of the item, or `saveDolar` on the chosen
value. -/
def StageFails {σ ε Fecha : Type} (env : Env σ ε Fecha) (s : σ) (e : ε) : Prop :=
  env.tcGet "precioMinimoPermitido".toList s = .error e ∨
  ∃ raw, env.tcGet "precioMinimoPermitido".toList s = .ok raw ∧
    (env.getxml = .error e ∨
     ∃ xmlText item, env.getxml = .ok xmlText ∧ itemContent xmlText = some item ∧
       (env.getDateBP (pubDateText item) = .error e ∨
        ∃ fecha, env.getDateBP (pubDateText item) = .ok fecha ∧
          (env.saveDolar (if strLt (valorDolar item) (precioMinimoPermitido raw)
            then precioMinimoPermitido raw else valorDolar item) fecha s).1 = .error e))

/-- The conditional request is not answered `304`: there is no `If-Modified-Since`
header, or the comparison of line 39 is false. -/
def NotAnswered304 {σ ε Fecha D V F : Type} (env : HttpEnv σ ε Fecha D V F)
    (request : Request) (data : D) : Prop :=
  request.ifModifiedSince = none ∨
  ∃ since kVUltAct, request.ifModifiedSince = some since ∧
    env.ultimaAct data = .ok kVUltAct ∧
    timeLe (env.timeOfValue kVUltAct) (env.timeOfText since) = false

/-! ## Facts about the string primitives -/

theorem startsWith_iff (needle s : JSString) : startsWith needle s = true ↔ needle <+: s := by
  induction needle generalizing s with
  | nil => simp [startsWith]
  | cons c cs ih =>
    cases s with
    | nil => simp [startsWith]
    | cons d ds =>
      simp only [startsWith, Bool.and_eq_true, beq_iff_eq, ih, List.cons_prefix_cons]

theorem searchFrom_none_iff (needle s : JSString) (k : Nat) :
    searchFrom needle s k = none ↔ ¬ needle <:+: s := by
  induction s generalizing k with
  | nil =>
    cases needle <;> simp [searchFrom]
  | cons c cs ih =>
    rw [searchFrom]
    by_cases h : startsWith needle (c :: cs) = true
    · rw [if_pos h]
      have := (startsWith_iff _ _).1 h
      simp [this.isInfix]
    · rw [if_neg h, ih]
      have hp : ¬ needle <+: c :: cs := fun hp => h ((startsWith_iff _ _).2 hp)
      rw [List.infix_cons_iff]
      tauto

/-- When `needle` occurs in `s` at offset `i` and at no smaller offset, the search
finds it there. -/
theorem searchFrom_first (needle s : JSString) (k i : Nat)
    (hat : needle <+: s.drop i) (hi : i ≤ s.length)
    (hfirst : ∀ j, j < i → ¬ needle <+: s.drop j) :
    searchFrom needle s k = some (k + i) := by
  induction s generalizing k i with
  | nil =>
    have hi0 : i = 0 := by simpa using hi
    subst hi0
    have hn : needle = [] := by simpa using hat
    simp [searchFrom, hn]
  | cons c cs ih =>
    rw [searchFrom]
    cases i with
    | zero =>
      have : startsWith needle (c :: cs) = true := (startsWith_iff _ _).2 (by simpa using hat)
      simp [this]
    | succ i =>
      have h0 : ¬ startsWith needle (c :: cs) = true := fun h =>
        hfirst 0 (Nat.succ_pos _) (by simpa using (startsWith_iff _ _).1 h)
      rw [if_neg h0, ih (k + 1) i (by simpa using hat) (by simpa using hi)
        (fun j hj => by simpa using hfirst (j + 1) (Nat.succ_lt_succ hj))]
      congr 1
      omega

/-- A needle whose first character does not occur again in it cannot start inside
`u` and run into a copy of itself that follows `u`, unless it lies within `u`. -/
theorem not_prefix_drop_of_absent (c : Char) (t u v : JSString) (hc : c ∉ t)
    (hu : ¬ (c :: t) <:+: u) (j : Nat) (hj : j < u.length) :
    ¬ (c :: t) <+: (u ++ ((c :: t) ++ v)).drop j := by
  intro hp
  rw [List.drop_append_of_le_length (Nat.le_of_lt hj)] at hp
  have hu' : u.drop j <+: u.drop j ++ ((c :: t) ++ v) := List.prefix_append _ _
  rcases Nat.le_total (c :: t).length (u.drop j).length with hle | hle
  · exact hu ((List.prefix_of_prefix_length_le hp hu' hle).isInfix.trans
      (List.drop_suffix j u).isInfix)
  · obtain ⟨w, hw⟩ := List.prefix_of_prefix_length_le hu' hp hle
    have hp' : u.drop j ++ w <+: u.drop j ++ ((c :: t) ++ v) := by rw [hw]; exact hp
    rw [List.prefix_append_right_inj] at hp'
    cases hd : u.drop j with
    | nil =>
      have := congrArg List.length hd
      simp at this
      omega
    | cons d ds =>
      rw [hd] at hw
      cases w with
      | nil =>
        -- the occurrence ends exactly where the copy begins: it lies within u
        rw [List.append_nil] at hw
        exact hu (by rw [← hw, ← hd]; exact (List.drop_suffix j u).isInfix)
      | cons e es =>
        have he : e = c := by
          obtain ⟨x, hx⟩ := hp'
          simp only [List.cons_append, List.cons.injEq] at hx
          exact hx.1
        subst he
        simp only [List.cons_append, List.cons.injEq] at hw
        exact hc (by rw [← hw.2]; simp)

theorem clampIndex_natCast (n len : Nat) (h : n ≤ len) : clampIndex (n : Int) len = n := by
  simp [clampIndex, h]

/-- The search from the position right after `w` finds the first copy of the needle
that follows, when the text `u` in between does not contain the needle. -/
theorem indexOf_append (c : Char) (t w u v : JSString) (hc : c ∉ t)
    (hu : ¬ (c :: t) <:+: u) :
    indexOf (w ++ (u ++ ((c :: t) ++ v))) (c :: t) (w.length : Int)
      = ((w.length + u.length : Nat) : Int) := by
  unfold indexOf
  simp only
  rw [clampIndex_natCast _ _ (by simp), List.drop_left,
    searchFrom_first (c :: t) _ w.length u.length (by simp) (by simp)
      (not_prefix_drop_of_absent c t u v hc hu)]

/-- No occurrence at or after the position: `indexOf` is `-1`. -/
theorem indexOf_eq_neg_one (s needle : JSString) (position : Int)
    (h : ¬ needle <:+: s.drop (clampIndex position s.length)) :
    indexOf s needle position = -1 := by
  unfold indexOf
  simp only
  rw [(searchFrom_none_iff _ _ _).2 h]

/-- The result of `indexOf` is `-1` or a position from which the needle can be read. -/
theorem indexOf_nonneg_or (s needle : JSString) (position : Int) :
    indexOf s needle position = -1 ∨ 0 ≤ indexOf s needle position := by
  unfold indexOf
  simp only
  cases searchFrom needle (List.drop (clampIndex position s.length) s)
    (clampIndex position s.length) with
  | none => left; rfl
  | some k => right; exact Int.natCast_nonneg k

/-- The method `substring` cuts out the middle of a concatenation. -/
theorem substring_append (w x v : JSString) :
    substring (w ++ (x ++ v)) (w.length : Int) ((w.length + x.length : Nat) : Int) = x := by
  unfold substring
  simp only
  rw [clampIndex_natCast _ _ (by simp), clampIndex_natCast _ _ (by simp)]
  simp

theorem indexOf_append_zero (c : Char) (t u v : JSString) (hc : c ∉ t)
    (hu : ¬ (c :: t) <:+: u) :
    indexOf (u ++ ((c :: t) ++ v)) (c :: t) 0 = (u.length : Int) := by
  have h := indexOf_append c t [] u v hc hu
  simpa using h

/-! ## Locating the item -/

/-- The item is found: it runs from the first `<title>DOLAR` to the end of the first
`</item>` at or after it. -/
theorem itemContent_found (pre mid post : JSString)
    (hpre : ¬ "<title>DOLAR".toList <:+: pre)
    (hmid : ¬ "</item>".toList <:+: "<title>DOLAR".toList ++ mid) :
    itemContent (pre ++ ("<title>DOLAR".toList ++ (mid ++ ("</item>".toList ++ post))))
      = some ("<title>DOLAR".toList ++ (mid ++ "</item>".toList)) := by
  have hs : indexOf (pre ++ ("<title>DOLAR".toList ++ (mid ++ ("</item>".toList ++ post))))
      "<title>DOLAR".toList 0 = (pre.length : Int) :=
    indexOf_append_zero '<' "title>DOLAR".toList pre _ (by decide) hpre
  have he : indexOf (pre ++ ("<title>DOLAR".toList ++ (mid ++ ("</item>".toList ++ post))))
      "</item>".toList (pre.length : Int)
        = ((pre.length + ("<title>DOLAR".toList ++ mid).length : Nat) : Int) := by
    have h := indexOf_append '<' "/item>".toList pre ("<title>DOLAR".toList ++ mid) post
      (by decide) hmid
    simpa [List.append_assoc] using h
  unfold itemContent
  simp only [hs, he]
  rw [if_neg (by omega)]
  have hsub := substring_append pre ("<title>DOLAR".toList ++ (mid ++ "</item>".toList)) post
  simp only [List.append_assoc, List.length_append] at hsub ⊢
  rw [← hsub]
  congr 2

/-- The item is not found: no `<title>DOLAR` at all, or no `</item>` at or after the
first one. -/
theorem itemContent_none (xmlText : JSString)
    (h : ¬ "<title>DOLAR".toList <:+: xmlText ∨
      ∃ pre rest, xmlText = pre ++ ("<title>DOLAR".toList ++ rest) ∧
        ¬ "<title>DOLAR".toList <:+: pre ∧
        ¬ "</item>".toList <:+: "<title>DOLAR".toList ++ rest) :
    itemContent xmlText = none := by
  unfold itemContent
  rcases h with h | ⟨pre, rest, rfl, hpre, hrest⟩
  · have : indexOf xmlText "<title>DOLAR".toList 0 = -1 :=
      indexOf_eq_neg_one _ _ _ (by simpa [clampIndex] using h)
    rw [this]
    simp
  · have hs : indexOf (pre ++ ("<title>DOLAR".toList ++ rest)) "<title>DOLAR".toList 0
        = (pre.length : Int) := by
      have h := indexOf_append_zero '<' "title>DOLAR".toList pre rest (by decide) hpre
      simpa using h
    have he : indexOf (pre ++ ("<title>DOLAR".toList ++ rest)) "</item>".toList
        (pre.length : Int) = -1 :=
      indexOf_eq_neg_one _ _ _ (by
        rw [clampIndex_natCast _ _ (by simp), List.drop_left]; exact hrest)
    simp only [hs, he]
    simp

/-- The text between a start tag and the first end tag after it is what the two
`indexOf` calls and `substring` of lines 35-37 (and 39-44) select. -/
theorem substring_between_tags (c d : Char) (t e a x b : JSString) (hc : c ∉ t) (hd : d ∉ e)
    (ha : ¬ (c :: t) <:+: a) (hx : ¬ (d :: e) <:+: x) :
    substring (a ++ ((c :: t) ++ (x ++ ((d :: e) ++ b))))
      (indexOf (a ++ ((c :: t) ++ (x ++ ((d :: e) ++ b)))) (c :: t) 0 + ((c :: t).length : Int))
      (indexOf (a ++ ((c :: t) ++ (x ++ ((d :: e) ++ b)))) (d :: e)
        (indexOf (a ++ ((c :: t) ++ (x ++ ((d :: e) ++ b)))) (c :: t) 0 + ((c :: t).length : Int)))
      = x := by
  rw [indexOf_append_zero c t a _ hc ha]
  have hw : (a.length : Int) + ((c :: t).length : Int) = ((a ++ (c :: t)).length : Int) := by
    simp
  have hR : a ++ ((c :: t) ++ (x ++ ((d :: e) ++ b))) = (a ++ (c :: t)) ++ (x ++ ((d :: e) ++ b)) := by
    simp
  rw [hw, hR, indexOf_append d e (a ++ (c :: t)) x b hd hx]
  exact substring_append (a ++ (c :: t)) x ((d :: e) ++ b)

theorem descriptionText_eq (a x b : JSString) (ha : ¬ "<description>".toList <:+: a)
    (hx : ¬ "</description>".toList <:+: x) :
    descriptionText (a ++ ("<description>".toList ++ (x ++ ("</description>".toList ++ b)))) = x :=
  substring_between_tags '<' '<' "description>".toList "/description>".toList a x b
    (by decide) (by decide) ha hx

theorem pubDateText_eq (a x b : JSString) (ha : ¬ "<pubDate>".toList <:+: a)
    (hx : ¬ "</pubDate>".toList <:+: x) :
    pubDateText (a ++ ("<pubDate>".toList ++ (x ++ ("</pubDate>".toList ++ b)))) = x :=
  substring_between_tags '<' '<' "pubDate>".toList "/pubDate>".toList a x b
    (by decide) (by decide) ha hx

/-! ## The run of `updateData` once the item is found -/

/-- Once the floor is read, the feed fetched, the item found and the date
normalised, `updateData` calls `saveDolar` once, with the floor when the value is
below it in the order of `<` on strings and with the value otherwise, and settles as
that call does. -/
theorem updateData_run {σ ε Fecha : Type} (env : Env σ ε Fecha) (s : σ)
    (raw : Option JSString) (xmlText item : JSString) (fecha : Fecha)
    (hfloor : env.tcGet "precioMinimoPermitido".toList s = .ok raw)
    (hxml : env.getxml = .ok xmlText) (hitem : itemContent xmlText = some item)
    (hfecha : env.getDateBP (pubDateText item) = .ok fecha) :
    (updateData env s).saved
        = [(if strLt (valorDolar item) (precioMinimoPermitido raw)
            then precioMinimoPermitido raw else valorDolar item, fecha)] ∧
      (updateData env s).store
        = (env.saveDolar (if strLt (valorDolar item) (precioMinimoPermitido raw)
            then precioMinimoPermitido raw else valorDolar item) fecha s).2 ∧
      (updateData env s).outcome
        = (env.saveDolar (if strLt (valorDolar item) (precioMinimoPermitido raw)
            then precioMinimoPermitido raw else valorDolar item) fecha s).1.map
          (fun _ => if strLt (valorDolar item) (precioMinimoPermitido raw)
            then ⟨"no ok".toList, none, some (reasonBelowFloor (valorDolar item))⟩
            else ⟨"ok".toList, some (valorDolar item), none⟩) := by
  unfold updateData
  simp only [hfloor, hxml, hitem, hfecha]
  by_cases hlt : strLt (valorDolar item) (precioMinimoPermitido raw) = true
  · simp only [hlt, if_true]
    rcases hsave : env.saveDolar (precioMinimoPermitido raw) fecha s with ⟨r, s'⟩
    cases r <;> simp [Except.map]
  · simp only [hlt, if_false]
    rcases hsave : env.saveDolar (valorDolar item) fecha s with ⟨r, s'⟩
    cases r <;> simp [Except.map, hsave]

/-! ## The format of `toFixed(4)` -/

theorem digitChar_isDigit (d : Nat) (h : d < 10) : (Nat.digitChar d).isDigit = true := by
  interval_cases d <;> decide

theorem natDigitsAux_isDigit (fuel n : Nat) (acc : JSString)
    (hacc : ∀ c ∈ acc, c.isDigit = true) :
    ∀ c ∈ natDigitsAux fuel n acc, c.isDigit = true := by
  induction fuel generalizing n acc with
  | zero => simpa [natDigitsAux] using hacc
  | succ fuel ih =>
    rw [natDigitsAux]
    split
    · intro c hc
      rcases List.mem_cons.1 hc with rfl | hc
      · exact digitChar_isDigit n (by assumption)
      · exact hacc c hc
    · apply ih
      intro c hc
      rcases List.mem_cons.1 hc with rfl | hc
      · exact digitChar_isDigit _ (Nat.mod_lt _ (by decide))
      · exact hacc c hc

theorem natDigitsAux_length_pos (fuel n : Nat) (acc : JSString) :
    0 < (natDigitsAux (fuel + 1) n acc).length := by
  induction fuel generalizing n acc with
  | zero =>
    rw [natDigitsAux]
    split <;> simp [natDigitsAux]
  | succ fuel ih =>
    rw [natDigitsAux]
    split
    · simp
    · exact ih _ _

theorem natDigits_isDigit (n : Nat) : ∀ c ∈ natDigits n, c.isDigit = true :=
  natDigitsAux_isDigit _ _ _ (by simp)

theorem natDigits_length_pos (n : Nat) : 0 < (natDigits n).length :=
  natDigitsAux_length_pos _ _ _

theorem takeWhile_isDigit_append (ip fp : JSString) (h : ∀ c ∈ ip, c.isDigit = true) :
    (ip ++ '.' :: fp).takeWhile Char.isDigit = ip := by
  induction ip with
  | nil => rfl
  | cons c cs ih =>
    have hc : c.isDigit = true := h c (by simp)
    simp only [List.cons_append, List.takeWhile_cons, hc, if_true]
    rw [ih (fun d hd => h d (by simp [hd]))]

theorem dropWhile_isDigit_append (ip fp : JSString) (h : ∀ c ∈ ip, c.isDigit = true) :
    (ip ++ '.' :: fp).dropWhile Char.isDigit = '.' :: fp := by
  induction ip with
  | nil => rfl
  | cons c cs ih =>
    have hc : c.isDigit = true := h c (by simp)
    simp only [List.cons_append, List.dropWhile_cons, hc, if_true]
    rw [ih (fun d hd => h d (by simp [hd]))]

theorem hasFourDecimals_append (ip fp : JSString) (hne : ip ≠ [])
    (hip : ∀ c ∈ ip, c.isDigit = true) (hlen : fp.length = 4)
    (hfp : ∀ c ∈ fp, c.isDigit = true) : hasFourDecimals (ip ++ '.' :: fp) = true := by
  unfold hasFourDecimals
  rw [takeWhile_isDigit_append ip fp hip, dropWhile_isDigit_append ip fp hip]
  simp [hne, hlen, List.all_eq_true]
  exact hfp

/-- Below `10^21`, `toFixed(4)` of a non-negative finite number reads `digits.dddd`. -/
theorem toFixed_four_decimals (num den : Nat) (h : num < 10 ^ 21 * den) :
    hasFourDecimals (toFixed (.fin false num den) 4) = true := by
  unfold toFixed
  simp only [Bool.false_eq_true, false_and, if_false, Nat.not_le.2 h, List.nil_append]
  simp only [ne_eq, OfNat.ofNat_ne_zero, not_false_eq_true, true_and, if_true]
  generalize hn : (2 * num * 10 ^ 4 + den) / (2 * den) = n
  have hd := natDigits_isDigit n
  have hl := natDigits_length_pos n
  generalize natDigits n = m at hd hl
  split
  · rename_i hle
    apply hasFourDecimals_append
    · intro h0
      have := congrArg List.length h0
      simp at this
      omega
    · intro c hc
      have hc' := List.mem_of_mem_take hc
      rcases List.mem_append.1 hc' with h1 | h1
      · rw [List.eq_of_mem_replicate h1]; decide
      · exact hd c h1
    · simp; omega
    · intro c hc
      have hc' := List.mem_of_mem_drop hc
      rcases List.mem_append.1 hc' with h1 | h1
      · rw [List.eq_of_mem_replicate h1]; decide
      · exact hd c h1
  · rename_i hle
    apply hasFourDecimals_append
    · intro h0
      have := congrArg List.length h0
      simp at this
      omega
    · exact fun c hc => hd c (List.mem_of_mem_take hc)
    · simp; omega
    · exact fun c hc => hd c (List.mem_of_mem_drop hc)

/-! ## The floor-price guard -/

set_option maxRecDepth 100000

/-- C1, evaluated at a failing input: the floor is `17.0000` and the description of the
DOLAR item is `9.5000`.  The value is numerically below the floor, but line 49
compares the two strings, and `"9.5000" < "17.0000"` is false; `updateData` calls
`saveDolar` with `9.5000` and returns `ok` with that price, where the claim has the
floor saved and `no ok` returned. -/
theorem updateData_below_floor_saved_as_is :
    valorDolar ("<title>DOLAR FIX</title><description>9.5000</description>".toList)
        = "9.5000".toList ∧
      precioMinimoPermitido (some "17.0000".toList) = "17.0000".toList ∧
      numLt (stringToNumber "9.5000".toList) (stringToNumber "17.0000".toList) = true ∧
      strLt "9.5000".toList "17.0000".toList = false ∧
      (updateData (stubEnv "17.0000".toList (.ok (feedWith "9.5000".toList))) none).saved
        = [("9.5000".toList, feedDate)] ∧
      (updateData (stubEnv "17.0000".toList (.ok (feedWith "9.5000".toList))) none).outcome
        = .ok ⟨"ok".toList, some "9.5000".toList, none⟩ := by
  decide

/-- C2, evaluated at a failing input: the floor is `17.0000` and the description of the
DOLAR item is `100.0000`.  The value is numerically at least the floor, but line 49
compares the two strings, and `"100.0000" < "17.0000"` is true; `updateData` calls
`saveDolar` with the floor and returns `no ok`, where the claim has the value saved
and `ok` returned. -/
theorem updateData_above_floor_replaced :
    valorDolar ("<title>DOLAR FIX</title><description>100.0000</description>".toList)
        = "100.0000".toList ∧
      precioMinimoPermitido (some "17.0000".toList) = "17.0000".toList ∧
      numLt (stringToNumber "100.0000".toList) (stringToNumber "17.0000".toList) = false ∧
      strLt "100.0000".toList "17.0000".toList = true ∧
      (updateData (stubEnv "17.0000".toList (.ok (feedWith "100.0000".toList))) none).saved
        = [("17.0000".toList, feedDate)] ∧
      (updateData (stubEnv "17.0000".toList (.ok (feedWith "100.0000".toList))) none).outcome
        = .ok ⟨"no ok".toList, none, some (reasonBelowFloor "100.0000".toList)⟩ := by
  decide

/-! ## The extractor -/

/-- C3: when the feed has no `<title>DOLAR`, or has no `</item>` at or after the first
one, `updateData` returns `no ok` with the not-found reason, never calls `saveDolar`
and leaves the store as it was. -/
theorem updateData_not_found {σ ε Fecha : Type} (env : Env σ ε Fecha) (s : σ)
    (raw : Option JSString) (xmlText : JSString)
    (hfloor : env.tcGet "precioMinimoPermitido".toList s = .ok raw)
    (hxml : env.getxml = .ok xmlText)
    (h : ¬ "<title>DOLAR".toList <:+: xmlText ∨
      ∃ pre rest, xmlText = pre ++ ("<title>DOLAR".toList ++ rest) ∧
        ¬ "<title>DOLAR".toList <:+: pre ∧
        ¬ "</item>".toList <:+: "<title>DOLAR".toList ++ rest) :
    (updateData env s).outcome = .ok ⟨"no ok".toList, none, some reasonNotFound⟩ ∧
      (updateData env s).saved = [] ∧ (updateData env s).store = s := by
  unfold updateData
  simp only [hfloor, hxml, itemContent_none xmlText h, and_self]

/-- C3 at a feed without the marker and at a feed whose DOLAR item is never closed. -/
theorem updateData_not_found_witness :
    ((updateData (stubEnv "17.0000".toList (.ok "<rss><channel></channel></rss>".toList))
        (some ("17.2000".toList, feedDate))).outcome
        = .ok ⟨"no ok".toList, none, some reasonNotFound⟩ ∧
      (updateData (stubEnv "17.0000".toList (.ok "<rss><channel></channel></rss>".toList))
        (some ("17.2000".toList, feedDate))).saved = [] ∧
      (updateData (stubEnv "17.0000".toList (.ok "<rss><channel></channel></rss>".toList))
        (some ("17.2000".toList, feedDate))).store = some ("17.2000".toList, feedDate)) ∧
    (updateData (stubEnv "17.0000".toList
        (.ok "</item><item><title>DOLAR FIX</title><description>17.5".toList))
        none).outcome = .ok ⟨"no ok".toList, none, some reasonNotFound⟩ :=
  ⟨updateData_not_found _ _ (some "17.0000".toList) _ rfl rfl
      (Or.inl (by rw [← searchFrom_none_iff _ _ 0]; decide)),
    (updateData_not_found (stubEnv "17.0000".toList
        (.ok "</item><item><title>DOLAR FIX</title><description>17.5".toList)) none
      (some "17.0000".toList) _ rfl rfl
      (Or.inr ⟨"</item><item>".toList, " FIX</title><description>17.5".toList, by decide,
        by rw [← searchFrom_none_iff _ _ 0]; decide,
        by rw [← searchFrom_none_iff _ _ 0]; decide⟩)).1⟩

/-- C4: when the item (from the first `<title>DOLAR` to the end of the first `</item>`
after it) reads `a <description> x </description> b` and `a' <pubDate> d </pubDate> b'`,
with no start tag in `a`, `a'` and no end tag in `x`, `d`, the text `updateData` converts
is `x` and the text it hands to `getDateBP` is `d`: what it saves is the value of `x`
(or the floor) with the date of `d`, and nothing when `getDateBP d` fails. -/
theorem updateData_extracts_fields {σ ε Fecha : Type} (env : Env σ ε Fecha) (s : σ)
    (raw : Option JSString) (pre mid post a x b a' d b' : JSString)
    (hfloor : env.tcGet "precioMinimoPermitido".toList s = .ok raw)
    (hxml : env.getxml
      = .ok (pre ++ ("<title>DOLAR".toList ++ (mid ++ ("</item>".toList ++ post)))))
    (hpre : ¬ "<title>DOLAR".toList <:+: pre)
    (hmid : ¬ "</item>".toList <:+: "<title>DOLAR".toList ++ mid)
    (hdesc : "<title>DOLAR".toList ++ (mid ++ "</item>".toList)
      = a ++ ("<description>".toList ++ (x ++ ("</description>".toList ++ b))))
    (ha : ¬ "<description>".toList <:+: a) (hx : ¬ "</description>".toList <:+: x)
    (hdate : "<title>DOLAR".toList ++ (mid ++ "</item>".toList)
      = a' ++ ("<pubDate>".toList ++ (d ++ ("</pubDate>".toList ++ b'))))
    (ha' : ¬ "<pubDate>".toList <:+: a') (hd : ¬ "</pubDate>".toList <:+: d) :
    itemContent (pre ++ ("<title>DOLAR".toList ++ (mid ++ ("</item>".toList ++ post))))
        = some ("<title>DOLAR".toList ++ (mid ++ "</item>".toList)) ∧
      descriptionText ("<title>DOLAR".toList ++ (mid ++ "</item>".toList)) = x ∧
      pubDateText ("<title>DOLAR".toList ++ (mid ++ "</item>".toList)) = d ∧
      (updateData env s).saved =
        (match env.getDateBP d with
          | .error _ => []
          | .ok fecha =>
            [(if strLt (toFixed (stringToNumber x) 4) (precioMinimoPermitido raw)
              then precioMinimoPermitido raw else toFixed (stringToNumber x) 4, fecha)]) := by
  have hitem := itemContent_found pre mid post hpre hmid
  have hdx : descriptionText ("<title>DOLAR".toList ++ (mid ++ "</item>".toList)) = x := by
    rw [hdesc]; exact descriptionText_eq a x b ha hx
  have hpd : pubDateText ("<title>DOLAR".toList ++ (mid ++ "</item>".toList)) = d := by
    rw [hdate]; exact pubDateText_eq a' d b' ha' hd
  refine ⟨hitem, hdx, hpd, ?_⟩
  cases hf : env.getDateBP d with
  | error e =>
    unfold updateData
    simp only [hfloor, hxml, hitem, hpd, hf]
  | ok fecha =>
    have h := (updateData_run env s raw _ _ fecha hfloor hxml hitem (by rw [hpd]; exact hf)).1
    rw [h]
    simp only [valorDolar, hdx]

/-- C4 at a feed whose DOLAR item follows an item of another series: the value and the
date saved are those of the DOLAR item. -/
theorem updateData_extracts_fields_witness :
    descriptionText ("<title>DOLAR".toList ++
        (" FIX</title><description>17.5000</description><pubDate>".toList ++ feedDate ++
          "</pubDate>".toList ++ "</item>".toList)) = "17.5000".toList ∧
      pubDateText ("<title>DOLAR".toList ++
        (" FIX</title><description>17.5000</description><pubDate>".toList ++ feedDate ++
          "</pubDate>".toList ++ "</item>".toList)) = feedDate ∧
      (updateData (stubEnv "17.0000".toList (.ok (feedWith "17.5000".toList))) none).saved
        = [("17.5000".toList, feedDate)] :=
  (updateData_extracts_fields (stubEnv "17.0000".toList (.ok (feedWith "17.5000".toList)))
    none (some "17.0000".toList)
    (("<rss><channel><item><title>UDIS</title><description>8.1234</description>".toList ++
      "<pubDate>Sun, 31 Dec 2023 12:00:00 GMT</pubDate></item>".toList) ++ "<item>".toList)
    (" FIX</title><description>17.5000</description><pubDate>".toList ++ feedDate ++
      "</pubDate>".toList)
    "</channel></rss>".toList
    "<title>DOLAR FIX</title>".toList "17.5000".toList
    ("<pubDate>".toList ++ feedDate ++ "</pubDate></item>".toList)
    "<title>DOLAR FIX</title><description>17.5000</description>".toList feedDate
    "</item>".toList
    rfl (by decide)
    (by rw [← searchFrom_none_iff _ _ 0]; decide)
    (by rw [← searchFrom_none_iff _ _ 0]; decide)
    (by decide)
    (by rw [← searchFrom_none_iff _ _ 0]; decide)
    (by rw [← searchFrom_none_iff _ _ 0]; decide)
    (by decide)
    (by rw [← searchFrom_none_iff _ _ 0]; decide)
    (by rw [← searchFrom_none_iff _ _ 0]; decide)).2

theorem indexOf_zero_of_absent (s needle : JSString) (h : ¬ needle <:+: s) :
    indexOf s needle 0 = -1 :=
  indexOf_eq_neg_one _ _ _ (by simpa [clampIndex] using h)

theorem reasonBelowFloor_ne (v : JSString) : reasonBelowFloor v ≠ reasonNotFound := by
  intro h
  have h0 := congrArg List.head? h
  simp [reasonBelowFloor, reasonNotFound] at h0

/-- C10 fails at a feed whose DOLAR item has no `<pubDate>`, with a date normaliser that
rejects what it cannot parse: the item is found, the date text selected from offset 8
is `<title>D`, `getDateBP` rejects it, `updateData` rejects with that error, and
nothing is persisted. -/
theorem missing_pubDate_nothing_saved :
    itemContent feedWithoutPubDate
        = some "<title>DOLAR FIX</title><description>17.5000</description></item>".toList ∧
      indexOf "<title>DOLAR FIX</title><description>17.5000</description></item>".toList
        "<pubDate>".toList 0 = -1 ∧
      pubDateText "<title>DOLAR FIX</title><description>17.5000</description></item>".toList
        = "<title>D".toList ∧
      (updateData (strictDateEnv "17.0000".toList (.ok feedWithoutPubDate)) none).outcome
        = .error "DateParseError".toList ∧
      (updateData (strictDateEnv "17.0000".toList (.ok feedWithoutPubDate)) none).saved = [] ∧
      (updateData (strictDateEnv "17.0000".toList (.ok feedWithoutPubDate)) none).store
        = none := by
  decide

/-- C10 as amended: once the item is found, a missing `<description>` (respectively
`<pubDate>`) start tag is not a not-found outcome.  The start index is `-1 + 13 = 12`
(respectively `-1 + 9 = 8`), the value is converted from the text `substring` selects
from offset 12, and the date text selected from offset 8 is handed to `getDateBP`.
The run never returns the not-found result.  When `getDateBP` returns, the run calls
`saveDolar` once, with that value, or with the floor when the value is below it in
the order of `<` on strings, and settles as that call does; when `getDateBP` throws,
the run rejects with that error, saves nothing and leaves the store as it was. -/
theorem updateData_missing_start_tag {σ ε Fecha : Type} (env : Env σ ε Fecha) (s : σ)
    (raw : Option JSString) (xmlText item : JSString)
    (hfloor : env.tcGet "precioMinimoPermitido".toList s = .ok raw)
    (hxml : env.getxml = .ok xmlText) (hitem : itemContent xmlText = some item) :
    (¬ "<description>".toList <:+: item →
        descriptionStartIndex item = -1 + 13 ∧
        valorDolar item = toFixed (stringToNumber
          (substring item 12 (indexOf item "</description>".toList 12))) 4) ∧
      (¬ "<pubDate>".toList <:+: item →
        pubDateStartIndex item = -1 + 9 ∧
        pubDateText item = substring item 8 (indexOf item "</pubDate>".toList 8)) ∧
      (updateData env s).outcome ≠ .ok ⟨"no ok".toList, none, some reasonNotFound⟩ ∧
      (∀ fecha, env.getDateBP (pubDateText item) = .ok fecha →
        (updateData env s).saved
          = [(if strLt (valorDolar item) (precioMinimoPermitido raw)
              then precioMinimoPermitido raw else valorDolar item, fecha)] ∧
        (updateData env s).store
          = (env.saveDolar (if strLt (valorDolar item) (precioMinimoPermitido raw)
              then precioMinimoPermitido raw else valorDolar item) fecha s).2 ∧
        (updateData env s).outcome
          = (env.saveDolar (if strLt (valorDolar item) (precioMinimoPermitido raw)
              then precioMinimoPermitido raw else valorDolar item) fecha s).1.map
            (fun _ => if strLt (valorDolar item) (precioMinimoPermitido raw)
              then ⟨"no ok".toList, none, some (reasonBelowFloor (valorDolar item))⟩
              else ⟨"ok".toList, some (valorDolar item), none⟩)) ∧
      (∀ e, env.getDateBP (pubDateText item) = .error e →
        (updateData env s).outcome = .error e ∧ (updateData env s).saved = [] ∧
        (updateData env s).store = s) := by
  refine ⟨fun h => ?_, fun h => ?_, ?_, fun fecha hf => ?_, fun e hf => ?_⟩
  · have hi : descriptionStartIndex item = 12 := by
      unfold descriptionStartIndex
      rw [indexOf_zero_of_absent _ _ h]
      rfl
    refine ⟨hi, ?_⟩
    unfold valorDolar descriptionText descriptionEndIndex
    rw [hi]
  · have hi : pubDateStartIndex item = 8 := by
      unfold pubDateStartIndex
      rw [indexOf_zero_of_absent _ _ h]
      rfl
    refine ⟨hi, ?_⟩
    unfold pubDateText pubDateEndIndex
    rw [hi]
  · cases hf : env.getDateBP (pubDateText item) with
    | error e =>
      unfold updateData
      simp only [hfloor, hxml, hitem, hf]
      exact fun h => nomatch h
    | ok fecha =>
      rw [(updateData_run env s raw _ _ fecha hfloor hxml hitem hf).2.2]
      cases (env.saveDolar (if strLt (valorDolar item) (precioMinimoPermitido raw) = true
        then precioMinimoPermitido raw else valorDolar item) fecha s).1 with
      | error e => exact fun h => nomatch h
      | ok u =>
        simp only [Except.map]
        split
        · intro h
          injection h with h
          injection h with _ _ h
          injection h with h
          exact reasonBelowFloor_ne _ h
        · intro h
          injection h with h
          injection h with h _ _
          revert h
          decide
  · exact updateData_run env s raw _ _ fecha hfloor hxml hitem hf
  · unfold updateData
    simp only [hfloor, hxml, hitem, hf, and_self]

/-- C10 as amended, at a feed whose DOLAR item has no description (the text selected
from offset 12 is `<title>DOLAR`, its value `NaN` is saved with the date of the item)
and at a feed whose DOLAR item has no pubDate: with a normaliser that keeps the text
`<title>D` is saved as the date, with one that rejects it nothing is saved. -/
theorem updateData_missing_start_tag_witness :
    (valorDolar ("<title>DOLAR FIX</title><pubDate>".toList ++ feedDate ++
        "</pubDate></item>".toList) = "NaN".toList ∧
      (updateData (stubEnv "17.0000".toList
        (.ok ("<rss><item><title>DOLAR FIX</title><pubDate>".toList ++ feedDate ++
          "</pubDate></item></rss>".toList))) none).outcome
        ≠ .ok ⟨"no ok".toList, none, some reasonNotFound⟩ ∧
      (updateData (stubEnv "17.0000".toList
        (.ok ("<rss><item><title>DOLAR FIX</title><pubDate>".toList ++ feedDate ++
          "</pubDate></item></rss>".toList))) none).saved = [("NaN".toList, feedDate)]) ∧
    (pubDateText "<title>DOLAR FIX</title><description>17.5000</description></item>".toList
        = "<title>D".toList ∧
      (updateData (stubEnv "17.0000".toList (.ok feedWithoutPubDate)) none).saved
        = [("17.5000".toList, "<title>D".toList)] ∧
      (updateData (strictDateEnv "17.0000".toList (.ok feedWithoutPubDate)) none).outcome
        = .error "DateParseError".toList ∧
      (updateData (strictDateEnv "17.0000".toList (.ok feedWithoutPubDate)) none).saved
        = []) :=
  have h := updateData_missing_start_tag
    (stubEnv "17.0000".toList
      (.ok ("<rss><item><title>DOLAR FIX</title><pubDate>".toList ++ feedDate ++
        "</pubDate></item></rss>".toList))) none (some "17.0000".toList) _
    ("<title>DOLAR FIX</title><pubDate>".toList ++ feedDate ++ "</pubDate></item>".toList)
    rfl rfl (by decide)
  have k := updateData_missing_start_tag
    (stubEnv "17.0000".toList (.ok feedWithoutPubDate)) none (some "17.0000".toList) _
    "<title>DOLAR FIX</title><description>17.5000</description></item>".toList
    rfl rfl (by decide)
  have m := updateData_missing_start_tag
    (strictDateEnv "17.0000".toList (.ok feedWithoutPubDate)) none (some "17.0000".toList) _
    "<title>DOLAR FIX</title><description>17.5000</description></item>".toList
    rfl rfl (by decide)
  ⟨⟨(h.1 (by rw [← searchFrom_none_iff _ _ 0]; decide)).2.trans (by decide), h.2.2.1,
      (h.2.2.2.1 feedDate (by decide)).1.trans (by decide)⟩,
    (k.2.1 (by rw [← searchFrom_none_iff _ _ 0]; decide)).2.trans (by decide),
    (k.2.2.2.1 "<title>D".toList (by decide)).1.trans (by decide),
    (m.2.2.2.2 "DateParseError".toList (by decide)).1,
    (m.2.2.2.2 "DateParseError".toList (by decide)).2.1⟩

/-- C5 fails at a description that is the numeral of `10^21`: `toFixed(4)` answers in
exponential notation from `10^21` on, the price returned and saved is `1e+21`, which
has no decimal point. -/
theorem updateData_price_exponential :
    ("1000000000000000000000".toList).all Char.isDigit = true ∧
      (updateData (stubEnv "17.0000".toList
        (.ok (feedWith "1000000000000000000000".toList))) none).outcome
        = .ok ⟨"ok".toList, some "1e+21".toList, none⟩ ∧
      (updateData (stubEnv "17.0000".toList
        (.ok (feedWith "1000000000000000000000".toList))) none).saved
        = [("1e+21".toList, feedDate)] ∧
      hasFourDecimals "1e+21".toList = false := by
  decide

/-- C5 as amended: when the description of the item converts to a finite non-negative
Number below `10^21`, the value `updateData` extracts reads `digits.dddd`, and it is
that value which a run that returns `ok` has saved and returns as price. -/
theorem updateData_value_four_decimals {σ ε Fecha : Type} (env : Env σ ε Fecha) (s : σ)
    (raw : Option JSString) (xmlText item : JSString) (num den : Nat)
    (hfloor : env.tcGet "precioMinimoPermitido".toList s = .ok raw)
    (hxml : env.getxml = .ok xmlText) (hitem : itemContent xmlText = some item)
    (hnum : stringToNumber (descriptionText item) = .fin false num den)
    (hlt : num < 10 ^ 21 * den) :
    hasFourDecimals (valorDolar item) = true ∧
      ∀ r, (updateData env s).outcome = .ok r → r.status = "ok".toList →
        r.price = some (valorDolar item) ∧
        ∃ fecha, (updateData env s).saved = [(valorDolar item, fecha)] := by
  refine ⟨by unfold valorDolar; rw [hnum]; exact toFixed_four_decimals num den hlt, ?_⟩
  intro r hr hok
  cases hf : env.getDateBP (pubDateText item) with
  | error e =>
    unfold updateData at hr
    simp only [hfloor, hxml, hitem, hf] at hr
    exact nomatch hr
  | ok fecha =>
    obtain ⟨h1, -, h3⟩ := updateData_run env s raw _ _ fecha hfloor hxml hitem hf
    rw [h3] at hr
    rw [h1]
    cases hcmp : strLt (valorDolar item) (precioMinimoPermitido raw) with
    | true =>
      simp only [hcmp, if_true] at hr
      cases hsv : (env.saveDolar (precioMinimoPermitido raw) fecha s).1 with
      | error e => rw [hsv] at hr; exact nomatch hr
      | ok u =>
        rw [hsv] at hr
        simp only [Except.map, Except.ok.injEq] at hr
        rw [← hr] at hok
        simp at hok
    | false =>
      simp only [hcmp, Bool.false_eq_true, if_false] at hr ⊢
      cases hsv : (env.saveDolar (valorDolar item) fecha s).1 with
      | error e => rw [hsv] at hr; exact nomatch hr
      | ok u =>
        rw [hsv] at hr
        simp only [Except.map, Except.ok.injEq] at hr
        rw [← hr]
        exact ⟨rfl, fecha, rfl⟩

/-- C5 as amended, at the feed of the scenario: the description `17.5000` is the
double `17.5`, the price returned is `17.5000`. -/
theorem updateData_value_four_decimals_witness :
    hasFourDecimals (valorDolar ("<title>DOLAR FIX</title><description>17.5000".toList ++
        "</description><pubDate>Mon, 01 Jan 2024 12:00:00 GMT</pubDate></item>".toList))
        = true ∧
      (updateData (stubEnv "17.0000".toList (.ok (feedWith "17.5000".toList))) none).outcome
        = .ok ⟨"ok".toList, some "17.5000".toList, none⟩ :=
  ⟨(updateData_value_four_decimals (stubEnv "17.0000".toList (.ok (feedWith "17.5000".toList)))
      none (some "17.0000".toList) (feedWith "17.5000".toList) _
      4925812092436480 281474976710656 rfl rfl (by decide) (by decide) (by decide)).1,
    by decide⟩

/-! ## Failures of the stages -/

/-- C6 fails when `getxml` rejects: `updateData` has no `catch`, so it rejects too and
returns no `{ status, reason }`; the rejection leaves `scheduled` and the
`/actualizar` branch of `fetch` as it came. -/
theorem updateData_rejection_escapes :
    (updateData (stubEnv "17.0000".toList (.error "FetchError".toList)) none).outcome
        = .error "FetchError".toList ∧
      (scheduled (stubEnv "17.0000".toList (.error "FetchError".toList)) none).outcome
        = .error "FetchError".toList ∧
      (fetch (stubHttpEnv "17.0000".toList (.error "FetchError".toList) "1704110400000".toList)
        (getRequest "/actualizar".toList none) none).outcome
        = .error "FetchError".toList := by
  decide

/-- A run of `updateData` rejects with `e` exactly when a stage fails with `e`. -/
theorem updateData_error_iff {σ ε Fecha : Type} (env : Env σ ε Fecha) (s : σ) (e : ε) :
    (updateData env s).outcome = .error e ↔ StageFails env s e := by
  unfold StageFails updateData
  cases env.tcGet "precioMinimoPermitido".toList s with
  | error e₁ => simp
  | ok raw =>
    dsimp only
    cases env.getxml with
    | error e₁ => simp
    | ok xmlText =>
      dsimp only
      cases hitem : itemContent xmlText with
      | none => simp [hitem]
      | some item =>
        dsimp only
        cases hf : env.getDateBP (pubDateText item) with
        | error e₁ => simp [hitem, hf]
        | ok fecha =>
          dsimp only
          cases hcmp : strLt (valorDolar item) (precioMinimoPermitido raw) with
          | true =>
            rcases hsv : env.saveDolar (precioMinimoPermitido raw) fecha s with ⟨r, s'⟩
            cases r <;> simp [hitem, hf, hcmp, hsv]
          | false =>
            rcases hsv : env.saveDolar (valorDolar item) fecha s with ⟨r, s'⟩
            cases r <;> simp [hitem, hf, hcmp, hsv]

/-- What a run of `updateData` returns, when it returns, has status `ok` and a price,
or status `no ok` and a reason. -/
theorem updateData_result_shape {σ ε Fecha : Type} (env : Env σ ε Fecha) (s : σ)
    (r : UpdateResult) (hr : (updateData env s).outcome = .ok r) :
    (r.status = "ok".toList ∧ r.price.isSome) ∨
      (r.status = "no ok".toList ∧ r.reason.isSome) := by
  unfold updateData at hr
  cases hfloor : env.tcGet "precioMinimoPermitido".toList s with
  | error e₁ => rw [hfloor] at hr; cases hr
  | ok raw =>
    rw [hfloor] at hr
    dsimp only at hr
    cases hxml : env.getxml with
    | error e₁ => rw [hxml] at hr; cases hr
    | ok xmlText =>
      rw [hxml] at hr
      dsimp only at hr
      cases hitem : itemContent xmlText with
      | none =>
        rw [hitem] at hr
        cases hr
        exact Or.inr ⟨rfl, rfl⟩
      | some item =>
        rw [hitem] at hr
        dsimp only at hr
        cases hf : env.getDateBP (pubDateText item) with
        | error e₁ => rw [hf] at hr; cases hr
        | ok fecha =>
          rw [hf] at hr
          dsimp only at hr
          cases hcmp : strLt (valorDolar item) (precioMinimoPermitido raw) with
          | true =>
            rw [hcmp, if_pos rfl] at hr
            rcases hsv : env.saveDolar (precioMinimoPermitido raw) fecha s with ⟨u, s'⟩
            rw [hsv] at hr
            cases u with
            | error e₁ => cases hr
            | ok u => cases hr; exact Or.inr ⟨rfl, rfl⟩
          | false =>
            rw [hcmp, if_neg (by decide)] at hr
            rcases hsv : env.saveDolar (valorDolar item) fecha s with ⟨u, s'⟩
            rw [hsv] at hr
            cases u with
            | error e₁ => cases hr
            | ok u => cases hr; exact Or.inl ⟨rfl, rfl⟩

/-! ## The router -/

/-- A GET request that is not answered `304` is routed on its path. -/
theorem fetch_eq_route {σ ε Fecha D V F : Type} (env : HttpEnv σ ε Fecha D V F)
    (request : Request) (s : σ) (data : D) (hget : request.method = "GET".toList)
    (hdata : (env.tcGet "data".toList s).bind env.jsonParse = .ok data)
    (h304 : NotAnswered304 env request data) :
    fetch env request s = route env request data s := by
  unfold fetch
  simp only [hget, ne_eq, not_true_eq_false, if_false, hdata]
  rcases h304 with h | ⟨since, v, h, hv, ht⟩
  · simp only [h]
  · simp only [h, hv, ht, Bool.false_eq_true, if_false]

/-- The branch of `/actualizar` runs `updateData` once and answers from its result. -/
theorem route_actualizar {σ ε Fecha D V F : Type} (env : HttpEnv σ ε Fecha D V F)
    (request : Request) (s : σ) (data : D)
    (hpath : request.pathname = "/actualizar".toList) :
    route env request data s
      = ⟨(updateData env.toEnv s).outcome.map respondUpdate,
          (updateData env.toEnv s).saved, (updateData env.toEnv s).store⟩ := by
  unfold route
  simp only [hpath]
  rw [if_pos (by decide), if_neg (by decide), if_neg (by decide), if_neg (by decide),
    if_pos (by decide)]
  cases (updateData env.toEnv s).outcome <;> rfl

/-- C6 as amended: `updateData` rejects with `e` exactly when the read of the floor,
`getxml`, `getDateBP` or `saveDolar` fails with `e`; otherwise it returns an object
whose status is `ok` or `no ok`.  A rejection is not caught by `scheduled` nor by the
`/actualizar` branch of `fetch`, which reject with `e` as well. -/
theorem updateData_failure_propagates {σ ε Fecha D V F : Type}
    (env : HttpEnv σ ε Fecha D V F) (s : σ) :
    (∀ e, StageFails env.toEnv s e ↔ (updateData env.toEnv s).outcome = .error e) ∧
      (∀ r, (updateData env.toEnv s).outcome = .ok r →
        (r.status = "ok".toList ∧ r.price.isSome) ∨
        (r.status = "no ok".toList ∧ r.reason.isSome)) ∧
      (∀ e, StageFails env.toEnv s e →
        (scheduled env.toEnv s).outcome = .error e ∧
        ∀ request data, request.method = "GET".toList →
          request.pathname = "/actualizar".toList →
          (env.tcGet "data".toList s).bind env.jsonParse = .ok data →
          NotAnswered304 env request data →
          (fetch env request s).outcome = .error e) := by
  refine ⟨fun e => (updateData_error_iff _ _ _).symm, updateData_result_shape _ _, ?_⟩
  intro e he
  have hu := (updateData_error_iff _ _ _).2 he
  refine ⟨by unfold scheduled; simp only [hu], ?_⟩
  intro request data hget hpath hdata h304
  rw [fetch_eq_route env request s data hget hdata h304, route_actualizar env request s data hpath]
  simp only [hu]
  rfl

/-- C6 as amended, at a run whose `getxml` rejects with `FetchError`. -/
theorem updateData_failure_propagates_witness :
    StageFails (stubEnv "17.0000".toList (.error "FetchError".toList)) none
        "FetchError".toList ∧
      (scheduled (stubHttpEnv "17.0000".toList (.error "FetchError".toList)
        "1704110400000".toList).toEnv none).outcome = .error "FetchError".toList :=
  ⟨Or.inr ⟨some "17.0000".toList, rfl, Or.inl rfl⟩,
    ((updateData_failure_propagates (stubHttpEnv "17.0000".toList
      (.error "FetchError".toList) "1704110400000".toList) none).2.2 "FetchError".toList
      (Or.inr ⟨some "17.0000".toList, rfl, Or.inl rfl⟩)).1⟩

/-- C7: a GET request whose `If-Modified-Since` time is at or after the time of
`data.ultimaAct` is answered `304` with a `null` body, whatever its path; nothing is
saved and the store is left as it was. -/
theorem fetch_not_modified {σ ε Fecha D V F : Type} (env : HttpEnv σ ε Fecha D V F)
    (request : Request) (s : σ) (data : D) (kVUltAct : V) (since : JSString) (t₀ t₁ : Int)
    (hget : request.method = "GET".toList)
    (hdata : (env.tcGet "data".toList s).bind env.jsonParse = .ok data)
    (hsince : request.ifModifiedSince = some since)
    (hult : env.ultimaAct data = .ok kVUltAct)
    (h₀ : env.timeOfValue kVUltAct = some t₀) (h₁ : env.timeOfText since = some t₁)
    (hle : t₀ ≤ t₁) :
    (fetch env request s).outcome
        = .ok ⟨304, .null, [("Vary".toList, "Accept-Encoding".toList),
            ("Cache-Control".toList, "no-store".toList)]⟩ ∧
      (fetch env request s).saved = [] ∧ (fetch env request s).store = s := by
  unfold fetch
  simp only [hget, ne_eq, not_true_eq_false, if_false, hdata, hsince, hult, h₀, h₁, timeLe,
    hle, decide_True, if_true, and_self]

/-- C7 at a request for the canonical path whose header carries the cached time. -/
theorem fetch_not_modified_witness :
    (fetch (stubHttpEnv "17.0000".toList (.ok (feedWith "17.5000".toList))
        "1704110400000".toList)
      (getRequest "/MX/tc_barmesa/_tipo-de-cambio.html".toList (some "1704110400000".toList))
      none).outcome
      = .ok ⟨304, .null, [("Vary".toList, "Accept-Encoding".toList),
          ("Cache-Control".toList, "no-store".toList)]⟩ :=
  (fetch_not_modified (stubHttpEnv "17.0000".toList (.ok (feedWith "17.5000".toList))
      "1704110400000".toList)
    (getRequest "/MX/tc_barmesa/_tipo-de-cambio.html".toList (some "1704110400000".toList))
    none "1704110400000".toList "1704110400000".toList "1704110400000".toList
    1704110400000 1704110400000 rfl rfl rfl rfl (by decide) (by decide) (by decide)).1

/-- C8 fails at a GET request for the unknown path `/otra` whose `If-Modified-Since`
time is the cached one: the conditional check of lines 34-43 comes before the
routing, and the answer is `304`, not `403`. -/
theorem unknown_path_answered_304 :
    ((fetch (stubHttpEnv "17.0000".toList (.ok (feedWith "17.5000".toList))
        "1704110400000".toList)
      (getRequest "/otra".toList (some "1704110400000".toList)) none).outcome.map
        Response.status) = .ok 304 := by
  decide

/-- C8 as amended: a GET request that is not answered `304`, once the cached data is
read, and whose path is none of the recognised ones nor empty, is answered `403`;
nothing is saved and the store is left as it was. -/
theorem fetch_unknown_path {σ ε Fecha D V F : Type} (env : HttpEnv σ ε Fecha D V F)
    (request : Request) (s : σ) (data : D)
    (hget : request.method = "GET".toList)
    (hdata : (env.tcGet "data".toList s).bind env.jsonParse = .ok data)
    (h304 : NotAnswered304 env request data)
    (hpath : request.pathname ∉ ["/MX/tc_barmesa/_tipo-de-cambio.html".toList, "/".toList,
      [], "/MX/tc_barmesa/_tipo-de-cambio".toList,
      "/MX/tc_barmesa/_tipo-de-cambio.json".toList, "/favicon.ico".toList,
      "/actualizar".toList]) :
    (fetch env request s).outcome = .ok ⟨403, .text "URL no permitida".toList, []⟩ ∧
      (fetch env request s).saved = [] ∧ (fetch env request s).store = s := by
  rw [fetch_eq_route env request s data hget hdata h304]
  simp only [List.mem_cons, List.mem_singleton, List.not_mem_nil, or_false, not_or] at hpath
  obtain ⟨h1, h2, h3, h4, h5, h6, h7⟩ := hpath
  unfold route
  simp only [ne_eq, h1, not_false_eq_true, if_true, h2, h3, h4, or_self, if_false, h5, h6, h7,
    and_self]

/-- C8 as amended, at a GET request for `/otra` without the header. -/
theorem fetch_unknown_path_witness :
    ((fetch (stubHttpEnv "17.0000".toList (.ok (feedWith "17.5000".toList))
        "1704110400000".toList)
      (getRequest "/otra".toList none) none).outcome.map Response.status) = .ok 403 :=
  congrArg (Except.map Response.status)
    (fetch_unknown_path (stubHttpEnv "17.0000".toList (.ok (feedWith "17.5000".toList))
        "1704110400000".toList)
      (getRequest "/otra".toList none) none "1704110400000".toList rfl rfl (Or.inl rfl)
      (by decide)).1

/-- C9 fails at a GET request for `/actualizar` whose `If-Modified-Since` time is the
cached one: the answer is `304` and `updateData`, which would have saved `17.5000`,
is not run. -/
theorem actualizar_answered_304 :
    ((fetch (stubHttpEnv "17.0000".toList (.ok (feedWith "17.5000".toList))
        "1704110400000".toList)
      (getRequest "/actualizar".toList (some "1704110400000".toList)) none).outcome.map
        Response.status) = .ok 304 ∧
      (fetch (stubHttpEnv "17.0000".toList (.ok (feedWith "17.5000".toList))
        "1704110400000".toList)
      (getRequest "/actualizar".toList (some "1704110400000".toList)) none).saved = [] ∧
      (updateData (stubHttpEnv "17.0000".toList (.ok (feedWith "17.5000".toList))
        "1704110400000".toList).toEnv none).saved = [("17.5000".toList, feedDate)] := by
  decide

/-- C9 as amended: a GET request for `/actualizar` that is not answered `304`, once the
cached data is read, runs `updateData` once (what is saved and the store are those of
one run) and answers from its result: `200` with the price when the status is `ok`,
`500` with the reason otherwise; a rejection of `updateData` is passed on. -/
theorem fetch_actualizar {σ ε Fecha D V F : Type} (env : HttpEnv σ ε Fecha D V F)
    (request : Request) (s : σ) (data : D)
    (hget : request.method = "GET".toList)
    (hdata : (env.tcGet "data".toList s).bind env.jsonParse = .ok data)
    (h304 : NotAnswered304 env request data)
    (hpath : request.pathname = "/actualizar".toList) :
    (fetch env request s).outcome = (updateData env.toEnv s).outcome.map respondUpdate ∧
      (fetch env request s).saved = (updateData env.toEnv s).saved ∧
      (fetch env request s).store = (updateData env.toEnv s).store ∧
      (∀ r : UpdateResult, r.status = "ok".toList →
        (respondUpdate r : Response D F) = ⟨200,
          .text ("Datos actualizados: Precio del dólar ".toList ++ interpolate r.price), []⟩) ∧
      (∀ r : UpdateResult, r.status ≠ "ok".toList →
        (respondUpdate r : Response D F) = ⟨500,
          .text ("Error al actualizar datos: ".toList ++ interpolate r.reason), []⟩) := by
  rw [fetch_eq_route env request s data hget hdata h304,
    route_actualizar env request s data hpath]
  refine ⟨rfl, rfl, rfl, fun r hr => ?_, fun r hr => ?_⟩
  · unfold respondUpdate; rw [if_pos hr]
  · unfold respondUpdate; rw [if_neg hr]

/-- C9 as amended, at a GET request for `/actualizar` without the header, on the feed
of the scenario: `200`, and `17.5000` is saved. -/
theorem fetch_actualizar_witness :
    ((fetch (stubHttpEnv "17.0000".toList (.ok (feedWith "17.5000".toList))
        "1704110400000".toList)
      (getRequest "/actualizar".toList none) none).outcome.map Response.status) = .ok 200 ∧
      (fetch (stubHttpEnv "17.0000".toList (.ok (feedWith "17.5000".toList))
        "1704110400000".toList)
      (getRequest "/actualizar".toList none) none).saved = [("17.5000".toList, feedDate)] :=
  have h := fetch_actualizar (stubHttpEnv "17.0000".toList (.ok (feedWith "17.5000".toList))
      "1704110400000".toList)
    (getRequest "/actualizar".toList none) none "1704110400000".toList rfl rfl (Or.inl rfl) rfl
  ⟨(congrArg (Except.map Response.status) h.1).trans (by decide), h.2.1.trans (by decide)⟩

end BpTcDolar
